import Mathlib

/-!
# Verification of the lovco room-scoped chat broker

A shallow embedding of the in-memory room / registry state machine of
`chat.go` (the revision containing `WatchChatQueue`), together with proofs
about its admission, release, promotion, closure and queue-watch behaviour.

Streams (`ChatService_JoinChatServer` handles) are abstracted by a type
parameter `H`; participant ids and room ids are `String`s as in the source.
Go map semantics (unique keys, insert-or-replace, delete) are embedded on
association lists.  Channel effects that escape the room state (closing a
waiter's `ready` channel, closing the `broadcaster` channel, deleting the
room from the global `rooms` map) are recorded in an explicit effect
record, since they are the observable signals of `leaveRoom`.
-/

namespace Lovco

/-- A queued guest-seat claimant: `waiter{uid, stream, ready}` from the
source.  The one-shot `ready` channel itself carries no data; firing it is
recorded as an effect of the operation that closes it. -/
structure Waiter (H : Type) where
  uid : String
  stream : H
  deriving Repr, DecidableEq

/-- In-memory state of one room: `room{slots, queue, broadcaster, closed}`.
`slots` embeds the Go map `map[string]ChatService_JoinChatServer` as an
association list with unique keys; `broadcaster` is a channel, so only its
open/closed status matters to the state machine and is tracked in the
release effects. -/
structure Room (H : Type) where
  slots : List (String × H)
  queue : List (Waiter H)
  closed : Bool
  deriving Repr, DecidableEq

/-- The room a `getRoom` creation produces: empty slots, empty queue, open. -/
def Room.new (H : Type) : Room H :=
  { slots := [], queue := [], closed := false }

/-- Go map assignment `slots[uid] = stream`: replace the binding if the key
is present, insert it otherwise. -/
def slotsInsert (s : List (String × H)) (uid : String) (h : H) :
    List (String × H) :=
  (uid, h) :: s.filter (fun p => p.1 ≠ uid)

/-- Go map deletion `delete(slots, uid)`. -/
def slotsDelete (s : List (String × H)) (uid : String) : List (String × H) :=
  s.filter (fun p => p.1 ≠ uid)

/-- Go map membership: `uid` has a binding in the slot map. -/
def slotsHas (s : List (String × H)) (uid : String) : Bool :=
  s.any (fun p => p.1 = uid)

/-- Result of an admission attempt, as seen by the caller of `joinRoom`:
`admitted` is the immediate `return nil`, `sessionClosed` the
`status.Errorf(codes.Canceled, "chat session is closed")` return, and
`queued` the path that appends a waiter and suspends on `<-ready`. -/
inductive JoinResult
  | admitted
  | queued
  | sessionClosed
  deriving Repr, DecidableEq

/-- `joinRoom` body, after `getRoom` returned the room: under the room lock,
a closed room is rejected without mutation; with fewer than two slots
filled the caller's stream is installed; otherwise a waiter is appended to
the queue tail and the caller suspends. -/
def joinRoom (r : Room H) (uid : String) (stream : H) :
    Room H × JoinResult :=
  if r.closed then
    (r, JoinResult.sessionClosed)
  else if r.slots.length < 2 then
    ({ r with slots := slotsInsert r.slots uid stream }, JoinResult.admitted)
  else
    ({ r with queue := r.queue ++ [⟨uid, stream⟩] }, JoinResult.queued)

/-- In the source, a waiter resumed by `<-queuedWaiter.ready` executes
`return nil` unconditionally: the resumed call always reports admission,
whatever caused the channel to fire. -/
def waiterReturn : JoinResult := JoinResult.admitted

/-- Observable effects of one `leaveRoom` call that are not part of the
room value: which waiters had their `ready` channel closed (in order),
whether `close(room.broadcaster)` ran, and whether the room id was deleted
from the global `rooms` map. -/
structure ReleaseEffect where
  signaled : List String
  broadcasterClosed : Bool
  removedFromRegistry : Bool
  deriving Repr, DecidableEq

/-- The body of `leaveRoom` under the room lock, given the answer of
`isUserOwner`: delete the caller's slot; an owner departure marks the room
closed, closes the broadcaster and deletes the registry entry; any other
departure promotes the head waiter when the queue is non-empty, installing
its stream in the slot map and closing its `ready` channel. -/
def release (r : Room H) (uid : String) (isOwner : Bool) :
    Room H × ReleaseEffect :=
  let slots1 := slotsDelete r.slots uid
  if isOwner then
    ({ r with slots := slots1, closed := true },
     { signaled := [], broadcasterClosed := true, removedFromRegistry := true })
  else
    match r.queue with
    | [] =>
        ({ r with slots := slots1 },
         { signaled := [], broadcasterClosed := false,
           removedFromRegistry := false })
    | w :: rest =>
        ({ r with slots := slotsInsert slots1 w.uid w.stream, queue := rest },
         { signaled := [w.uid], broadcasterClosed := false,
           removedFromRegistry := false })

/-- One admission or departure on one room.  `leave uid` carries no
ownership flag: ownership is resolved against the room's fixed owner id. -/
inductive Op (H : Type)
  | join (uid : String) (stream : H)
  | leave (uid : String)
  deriving Repr, DecidableEq

/-- Apply one operation to a room.  `ownerId` is the answer of the external
Ownership Resolver (`isUserOwner`) for this room id, a pure query fixed for
the room's lifetime. -/
def applyOp (ownerId : String) (r : Room H) : Op H → Room H
  | Op.join uid s => (joinRoom r uid s).1
  | Op.leave uid => (release r uid (uid = ownerId)).1

/-- Run a sequence of admissions and departures from the fresh room. -/
def runOps (ownerId : String) (ops : List (Op H)) : Room H :=
  ops.foldl (applyOp ownerId) (Room.new H)

/-- The spec's owner-seat observation on the code's undifferentiated slot
map: the owner seat is held exactly when the participant the Ownership
Resolver names as owner has a slot, and then by that id. -/
def ownerSeat (ownerId : String) (r : Room H) : Option String :=
  if slotsHas r.slots ownerId then some ownerId else none

/-- Number of seated participants the Resolver identifies as the owner. -/
def ownerHolders (ownerId : String) (r : Room H) : Nat :=
  (r.slots.filter (fun p => p.1 = ownerId)).length

/-- Number of seated participants the Resolver does not identify as the
owner, i.e. guest-seat holders in the spec's vocabulary. -/
def guestHolders (ownerId : String) (r : Room H) : Nat :=
  (r.slots.filter (fun p => p.1 ≠ ownerId)).length

/-- The process-wide `rooms` map (`map[string]*room`), embedded as an
association list with unique keys. -/
def Registry (H : Type) : Type := List (String × Room H)

/-- Registry lookup, `rooms[roomID]`: `some` the stored room, or `none`
for the Go nil pointer when the id is absent. -/
def regLookup (regs : Registry H) (roomID : String) : Option (Room H) :=
  (List.find? (fun p => p.1 = roomID) regs).map Prod.snd

/-- Store a room under an id (`rooms[roomID] = r`), replacing any existing
binding. -/
def regStore (regs : Registry H) (roomID : String) (r : Room H) :
    Registry H :=
  (roomID, r) :: List.filter (fun p => p.1 ≠ roomID) regs

/-- `delete(rooms, roomID)`. -/
def regDelete (regs : Registry H) (roomID : String) : Registry H :=
  List.filter (fun p => p.1 ≠ roomID) regs

/-- `getRoom`: return the stored room, or create a fresh open room, store
it (its Broadcast Loop starting with it) and return it.  The source checks
only `r == nil` — there is no tombstone for a previously removed id. -/
def getRoom (regs : Registry H) (roomID : String) :
    Registry H × Room H :=
  match regLookup regs roomID with
  | some r => (regs, r)
  | none => (regStore regs roomID (Room.new H), Room.new H)

/-- The room-state effect of `JoinChat`'s admission step: `getRoom`
followed by `joinRoom`, with the mutated room visible through the shared
pointer (embedded as a store-back). -/
def joinChat (regs : Registry H) (roomID uid : String) (stream : H) :
    Registry H × JoinResult :=
  let (regs1, r) := getRoom regs roomID
  let (r1, res) := joinRoom r uid stream
  (regStore regs1 roomID r1, res)

/-- Outcome of a `leaveRoom` call.  `panicked` is the nil-pointer
dereference `room.mu.Lock()` performed when `rooms[roomID]` returned nil;
`resolverError` is the early `return` taken when `isUserOwner` fails. -/
inductive LeaveOutcome
  | ok (eff : ReleaseEffect)
  | resolverError
  | panicked
  deriving Repr, DecidableEq

/-- `leaveRoom`: look the room up (without a nil check), resolve ownership
through the database (`none` embeds a resolver failure), then lock the
room — a nil room panics here — and run the release body.  An owner
departure's registry deletion is part of the same call. -/
def leaveRoom (regs : Registry H) (roomID uid : String)
    (ownerAnswer : Option Bool) : Registry H × LeaveOutcome :=
  let room? := regLookup regs roomID
  match ownerAnswer with
  | none => (regs, LeaveOutcome.resolverError)
  | some isOwner =>
      match room? with
      | none => (regs, LeaveOutcome.panicked)
      | some r =>
          let (r1, eff) := release r uid isOwner
          if eff.removedFromRegistry then
            (regDelete (regStore regs roomID r1) roomID, LeaveOutcome.ok eff)
          else
            (regStore regs roomID r1, LeaveOutcome.ok eff)

/-- One observation sent by `WatchChatQueue` on a ticker tick:
`closedErr` is the `codes.Canceled` return for a closed room; otherwise a
`{queuedCount, position}` report, with `position` defaulting to `-1` and
set to `i+1` for the first queue entry whose uid matches the caller.  A
missing room reports `0` and `-1`.  The slot map is never consulted. -/
inductive WatchResult
  | report (queuedCount : Int) (position : Int)
  | closedErr
  deriving Repr, DecidableEq

/-- The position-scanning loop of `WatchChatQueue`, carrying the running
index `i`: the first queue entry whose uid matches the caller yields
`i + 1` and breaks; falling off the end leaves the initial `-1`. -/
def watchPositionFrom (uid : String) (i : Int) :
    List (Waiter H) → Int
  | [] => -1
  | w :: rest => if w.uid = uid then i + 1 else watchPositionFrom uid (i + 1) rest

/-- The caller's reported queue position: 1-based index of its first queue
entry, `-1` when it has none. -/
def watchPosition (uid : String) (queue : List (Waiter H)) : Int :=
  watchPositionFrom uid 0 queue

/-- The per-tick body of `WatchChatQueue`. -/
def watchTick (regs : Registry H) (roomID uid : String) : WatchResult :=
  match regLookup regs roomID with
  | none => WatchResult.report 0 (-1)
  | some r =>
      if r.closed then WatchResult.closedErr
      else WatchResult.report r.queue.length (watchPosition uid r.queue)

/-! ## Helper lemmas -/

theorem regLookup_regDelete_self (regs : Registry H) (roomID : String) :
    regLookup (regDelete regs roomID) roomID = none := by
  unfold regLookup regDelete
  cases hf : List.find? (fun p => p.1 = roomID)
      (List.filter (fun p => p.1 ≠ roomID) regs) with
  | none => simp [hf]
  | some x =>
      exfalso
      have hmem := List.mem_of_find?_eq_some hf
      have hpred := List.find?_some hf
      have h2 := (List.mem_filter.mp hmem).2
      simp at hpred h2
      exact h2 hpred

theorem regLookup_regStore_self (regs : Registry H) (roomID : String)
    (r : Room H) :
    regLookup (regStore regs roomID r) roomID = some r := by
  simp [regLookup, regStore, List.find?]

end Lovco

namespace Lovco

/-! ## Claims -/

/-- C6: an `admit` (`joinRoom`) call on a room whose `closed` flag is true
fails with the "session closed" cancelled condition and returns the room
state — slots, queue, closed flag — unchanged. -/
theorem joinRoom_closed_rejects (r : Room H) (uid : String) (stream : H)
    (h : r.closed = true) :
    joinRoom r uid stream = (r, JoinResult.sessionClosed) := by
  simp [joinRoom, h]

/-- Witness for `joinRoom_closed_rejects` at a concrete closed room. -/
theorem joinRoom_closed_rejects_witness :
    joinRoom ({ slots := [("o", 0)], queue := [], closed := true } : Room Nat)
        "g" 1
      = ({ slots := [("o", 0)], queue := [], closed := true },
         JoinResult.sessionClosed) :=
  joinRoom_closed_rejects _ "g" 1 rfl

/-- C10: a `leaveRoom` call naming a room id with no registry entry does
not check the nil lookup result; once the ownership resolution succeeds,
the call reaches `room.mu.Lock()` on the nil pointer and panics instead of
returning as a graceful no-op. -/
theorem leaveRoom_missing_room_panics (regs : Registry H)
    (roomID uid : String) (isOwner : Bool)
    (h : regLookup regs roomID = none) :
    leaveRoom regs roomID uid (some isOwner)
      = (regs, LeaveOutcome.panicked) := by
  simp [leaveRoom, h]

/-- Witness for `leaveRoom_missing_room_panics` on the empty registry. -/
theorem leaveRoom_missing_room_panics_witness :
    leaveRoom ([] : Registry Nat) "r" "u" (some false)
      = ([], LeaveOutcome.panicked) :=
  leaveRoom_missing_room_panics [] "r" "u" false rfl

/-- C3: the owner seat — the slot of the participant the Ownership
Resolver names as the room's owner — is only ever observed held by that
one id: across any two runs of admissions/departures where the seat is
held, the holder is the same participant id. -/
theorem ownerSeat_stable (ownerId : String) (ops₁ ops₂ : List (Op H))
    (p q : String)
    (h₁ : ownerSeat ownerId (runOps ownerId ops₁) = some p)
    (h₂ : ownerSeat ownerId (runOps ownerId (ops₁ ++ ops₂)) = some q) :
    q = p := by
  unfold ownerSeat at h₁ h₂
  split at h₁
  · split at h₂
    · injection h₁ with e₁
      injection h₂ with e₂
      rw [← e₁, ← e₂]
    · exact Option.noConfusion h₂
  · exact Option.noConfusion h₁

/-- Witness for `ownerSeat_stable`: the owner "o" joins, later a guest
joins; whenever the owner seat is held it is held by "o". -/
theorem ownerSeat_stable_witness :
    ownerSeat "o" (runOps "o" [Op.join "o" (0 : Nat)]) = some "o" ∧
    ownerSeat "o" (runOps "o" ([Op.join "o" (0 : Nat)] ++ [Op.join "g" 1]))
      = some "o" ∧
    ("o" : String) = "o" :=
  ⟨by decide, by decide,
   ownerSeat_stable "o" [Op.join "o" (0 : Nat)] [Op.join "g" 1] "o" "o"
     (by decide) (by decide)⟩

/-- Registry holding one room "r1" with owner "o1" and guest "g1" seated
and waiter "g2" queued, built by three admissions. -/
def regsC1 : Registry Nat :=
  (joinChat
    (joinChat (joinChat ([] : Registry Nat) "r1" "o1" 0).1 "r1" "g1" 1).1
    "r1" "g2" 2).1

/-- C1 counterexample: the owner's departure from a room with a queued
waiter signals nobody (`signaled = []`) and leaves the waiter still queued
in the closing room — it does not fire each queued waiter's closure signal
and does not empty the queue. -/
theorem ownerLeave_skips_waiters_cex :
    ((regLookup regsC1 "r1").getD (Room.new Nat)).queue = [⟨"g2", 2⟩] ∧
    (leaveRoom regsC1 "r1" "o1" (some true)).2
      = LeaveOutcome.ok
          { signaled := [], broadcasterClosed := true,
            removedFromRegistry := true } ∧
    (release ((regLookup regsC1 "r1").getD (Room.new Nat)) "o1" true).1.queue
      = [⟨"g2", 2⟩] := by decide

/-- C1 amended: a release by the participant the resolver names as owner
sets `closed` to true, stops the Broadcast Loop by closing the inbound
channel, and removes the room from the Registry — but it fires no queued
waiter's signal and leaves the queue exactly as it was. -/
theorem ownerLeave_behavior (regs : Registry H) (roomID uid : String)
    (r : Room H) (h : regLookup regs roomID = some r) :
    (leaveRoom regs roomID uid (some true)).2
      = LeaveOutcome.ok
          { signaled := [], broadcasterClosed := true,
            removedFromRegistry := true } ∧
    regLookup (leaveRoom regs roomID uid (some true)).1 roomID = none ∧
    (release r uid true).1.closed = true ∧
    (release r uid true).1.queue = r.queue := by
  have hstep : leaveRoom regs roomID uid (some true)
      = (regDelete (regStore regs roomID (release r uid true).1) roomID,
         LeaveOutcome.ok
           { signaled := [], broadcasterClosed := true,
             removedFromRegistry := true }) := by
    simp [leaveRoom, h, release]
  refine ⟨by rw [hstep], ?_, by simp [release], by simp [release]⟩
  rw [hstep]
  exact regLookup_regDelete_self _ _

/-- Small registry for the closure-behaviour witness. -/
def regsW1 : Registry Nat :=
  regStore [] "rw" { slots := [("u", 0)], queue := [⟨"q", 1⟩], closed := false }

/-- Witness for `ownerLeave_behavior` at a concrete one-room registry. -/
theorem ownerLeave_behavior_witness :
    regLookup regsW1 "rw"
      = some { slots := [("u", 0)], queue := [⟨"q", 1⟩], closed := false } ∧
    regLookup (leaveRoom regsW1 "rw" "u" (some true)).1 "rw" = none :=
  ⟨by decide,
   (ownerLeave_behavior regsW1 "rw" "u"
     { slots := [("u", 0)], queue := [⟨"q", 1⟩], closed := false }
     (by decide)).2.1⟩

/-- Registry in which room "r7" was created by its owner "o7" joining and
then removed by the owner's departure. -/
def regsC7 : Registry Nat :=
  (leaveRoom (joinChat ([] : Registry Nat) "r7" "o7" 0).1 "r7" "o7"
    (some true)).1

/-- C7 counterexample: after the owner's departure removed room "r7", a
later join attempt for that id is admitted — the Registry re-creates a
fresh open room under the removed id instead of failing with
SessionClosed. -/
theorem closed_id_recreated_cex :
    regLookup regsC7 "r7" = none ∧
    (joinChat regsC7 "r7" "g7" 1).2 = JoinResult.admitted ∧
    (regLookup (joinChat regsC7 "r7" "g7" 1).1 "r7").isSome = true := by
  decide

/-- C7 amended: the owner's departure removes the room id from the
Registry, but closure is not remembered — the next join attempt for that
id lazily creates a fresh open room and succeeds with admission rather
than failing with SessionClosed. -/
theorem join_after_owner_leave_succeeds (regs : Registry H)
    (roomID uid uid' : String) (stream : H) (r : Room H)
    (h : regLookup regs roomID = some r) :
    regLookup (leaveRoom regs roomID uid (some true)).1 roomID = none ∧
    (joinChat (leaveRoom regs roomID uid (some true)).1 roomID uid'
        stream).2
      = JoinResult.admitted := by
  have hstep : (leaveRoom regs roomID uid (some true)).1
      = regDelete (regStore regs roomID (release r uid true).1) roomID := by
    simp [leaveRoom, h, release]
  have hnone :
      regLookup (leaveRoom regs roomID uid (some true)).1 roomID = none := by
    rw [hstep]
    exact regLookup_regDelete_self _ _
  refine ⟨hnone, ?_⟩
  simp [joinChat, getRoom, hnone, joinRoom, Room.new]

/-- Witness for `join_after_owner_leave_succeeds` at a concrete registry. -/
theorem join_after_owner_leave_succeeds_witness :
    regLookup (regStore ([] : Registry Nat) "rj" (Room.new Nat)) "rj"
      = some (Room.new Nat) ∧
    (joinChat
        (leaveRoom (regStore ([] : Registry Nat) "rj" (Room.new Nat)) "rj"
          "u" (some true)).1
        "rj" "v" 3).2
      = JoinResult.admitted :=
  ⟨by decide,
   (join_after_owner_leave_succeeds
     (regStore ([] : Registry Nat) "rj" (Room.new Nat)) "rj" "u" "v" 3
     (Room.new Nat) (by decide)).2⟩

/-- Full room with a queued waiter, used against the promotion claim:
"a4" and "b4" are seated, "c4" queued, "d4" holds no seat. -/
def roomC4 : Room Nat :=
  { slots := [("a4", 0), ("b4", 1)], queue := [⟨"c4", 2⟩], closed := false }

/-- C4 counterexample: a departure by "d4", who holds no seat at all (so
in particular not the guest seat), still promotes the queued waiter "c4"
— refuting "no promotion occurs on a departure by a participant who does
not hold the guest seat". -/
theorem promotion_without_guest_departure_cex :
    slotsHas roomC4.slots "d4" = false ∧
    (release roomC4 "d4" false).2.signaled = ["c4"] ∧
    slotsHas (release roomC4 "d4" false).1.slots "c4" = true := by decide

/-- C4 amended: every non-owner release on a room with a non-empty queue
— whether or not the departing participant held the guest seat — promotes
exactly the head waiter: its stream is installed in the slot map, its
readiness channel alone is fired, and the remaining queue keeps its
arrival order. -/
theorem nonOwner_release_promotes_head (r : Room H) (uid : String)
    (w : Waiter H) (rest : List (Waiter H)) (hq : r.queue = w :: rest) :
    release r uid false
      = ({ r with
            slots := slotsInsert (slotsDelete r.slots uid) w.uid w.stream,
            queue := rest },
         { signaled := [w.uid], broadcasterClosed := false,
           removedFromRegistry := false }) := by
  simp [release, hq]

/-- Room for the promotion witness: guest "g4" seated, "h4" then "i4"
queued. -/
def roomW4 : Room Nat :=
  { slots := [("g4", 0)], queue := [⟨"h4", 1⟩, ⟨"i4", 2⟩], closed := false }

/-- Witness for `nonOwner_release_promotes_head` on a concrete room. -/
theorem nonOwner_release_promotes_head_witness :
    roomW4.queue = ⟨"h4", 1⟩ :: [⟨"i4", 2⟩] ∧
    release roomW4 "g4" false
      = ({ slots := [("h4", 1)], queue := [⟨"i4", 2⟩], closed := false },
         { signaled := ["h4"], broadcasterClosed := false,
           removedFromRegistry := false }) :=
  ⟨rfl,
   by
    have h := nonOwner_release_promotes_head roomW4 "g4" ⟨"h4", 1⟩
      [⟨"i4", 2⟩] rfl
    rw [h]
    decide⟩

/-- Room against the waiter-outcome claim: owner "o5" and guest "g5"
seated, "w5" queued. -/
def roomC5 : Room Nat :=
  { slots := [("o5", 0), ("g5", 1)], queue := [⟨"w5", 2⟩], closed := false }

/-- C5 counterexample: closing the room (owner departure) fires no queued
waiter's signal — "w5" stays queued unsignalled — and a waiter that is
resumed at all returns the admitted result, never a "session closed"
failure. -/
theorem closure_never_fires_waiter_cex :
    roomC5.queue = [⟨"w5", 2⟩] ∧
    (release roomC5 "o5" true).2.signaled = [] ∧
    (release roomC5 "o5" true).1.closed = true ∧
    waiterReturn = JoinResult.admitted ∧
    waiterReturn ≠ JoinResult.sessionClosed := by decide

/-- C5 amended: a queued waiter's readiness signal fires only on a
non-owner departure that promotes it from the queue head, and a resumed
waiter always returns the admitted result; room closure fires no signal,
so a waiter in a closing room never observes a "session closed" failure —
it is simply never resumed. -/
theorem waiter_signal_semantics (r : Room H) (uid u : String)
    (isOwner : Bool) (h : u ∈ (release r uid isOwner).2.signaled) :
    isOwner = false ∧ waiterReturn = JoinResult.admitted ∧
    ∃ w rest, r.queue = w :: rest ∧ u = w.uid := by
  cases isOwner with
  | true => simp [release] at h
  | false =>
      cases hq : r.queue with
      | nil => simp [release, hq] at h
      | cons w rest =>
          simp [release, hq] at h
          exact ⟨rfl, rfl, w, rest, rfl, h⟩

/-- Room for the waiter-signal witness. -/
def roomW5 : Room Nat :=
  { slots := [("a5", 0)], queue := [⟨"x5", 1⟩], closed := false }

/-- Witness for `waiter_signal_semantics`: "x5" is signaled by a
non-owner departure and the resumed call reports admission. -/
theorem waiter_signal_semantics_witness :
    "x5" ∈ (release roomW5 "a5" false).2.signaled ∧
    (false = false ∧ waiterReturn = JoinResult.admitted ∧
      ∃ w rest, roomW5.queue = w :: rest ∧ "x5" = w.uid) :=
  ⟨by decide, waiter_signal_semantics roomW5 "a5" "x5" false (by decide)⟩

/-- Reachable full room for the re-admission claim: owner "o9" and guest
"g9" join an empty room. -/
def roomC9 : Room Nat := runOps "o9" [Op.join "o9" (0 : Nat), Op.join "g9" 1]

/-- C9 counterexample: with both slots filled, a second admit by the
already-seated guest "g9" does not succeed immediately — it is appended
to the wait queue (a duplicate entry while still seated), so guest
re-admission is not idempotent on room state. -/
theorem full_room_readmission_cex :
    slotsHas roomC9.slots "g9" = true ∧
    (joinRoom roomC9 "g9" 1).2 = JoinResult.queued ∧
    (joinRoom roomC9 "g9" 1).1.queue = [⟨"g9", 1⟩] := by decide

/-- C9 amended: re-admission of an already-seated participant succeeds
immediately, retains the same seat and adds no queue entry only while the
second slot is still free (the participant is the sole occupant); with
both slots filled the re-admission is queued instead. -/
theorem sole_occupant_readmission_idempotent (r : Room H) (uid : String)
    (h : H) (hc : r.closed = false) (hs : r.slots = [(uid, h)]) :
    joinRoom r uid h = (r, JoinResult.admitted) := by
  obtain ⟨slots, queue, closed⟩ := r
  simp only at hc hs
  subst hc
  subst hs
  simp [joinRoom, slotsInsert]

/-- A departure names the room's owner or a currently seated participant;
admissions are unconstrained.  (The restriction under which the occupancy
bound survives: the counterexample departure is by an unrelated id.) -/
def opAllowed (ownerId : String) (r : Room H) : Op H → Bool
  | Op.join _ _ => true
  | Op.leave uid => slotsHas r.slots uid || uid = ownerId

/-- Run operations from a given room, failing when a departure names
neither the owner nor a seated participant. -/
def runOpsCheckedFrom (ownerId : String) (r : Room H) :
    List (Op H) → Option (Room H)
  | [] => some r
  | op :: rest =>
      if opAllowed ownerId r op then
        runOpsCheckedFrom ownerId (applyOp ownerId r op) rest
      else none

/-- Checked run from the fresh room. -/
def runOpsChecked (ownerId : String) (ops : List (Op H)) :
    Option (Room H) :=
  runOpsCheckedFrom ownerId (Room.new H) ops

/-- Structural slot-map invariant: pairwise distinct keys, at most two
entries. -/
def RoomInv (r : Room H) : Prop :=
  (r.slots.map Prod.fst).Nodup ∧ r.slots.length ≤ 2

theorem slotsInsert_keys_nodup (s : List (String × H)) (uid : String)
    (h : H) (hs : (s.map Prod.fst).Nodup) :
    ((slotsInsert s uid h).map Prod.fst).Nodup := by
  unfold slotsInsert
  simp only [List.map_cons, List.nodup_cons]
  refine ⟨?_, ?_⟩
  · intro hmem
    rcases List.mem_map.mp hmem with ⟨p, hp, hfst⟩
    have hne := (List.mem_filter.mp hp).2
    simp at hne
    exact hne hfst
  · exact List.Nodup.sublist (List.Sublist.map Prod.fst
      (List.filter_sublist s)) hs

theorem slotsInsert_length (s : List (String × H)) (uid : String) (h : H) :
    (slotsInsert s uid h).length ≤ s.length + 1 := by
  unfold slotsInsert
  simp only [List.length_cons, Nat.add_le_add_iff_right]
  exact List.length_filter_le _ _

theorem slotsDelete_keys_nodup (s : List (String × H)) (uid : String)
    (hs : (s.map Prod.fst).Nodup) :
    ((slotsDelete s uid).map Prod.fst).Nodup :=
  List.Nodup.sublist (List.Sublist.map Prod.fst (List.filter_sublist s)) hs

theorem slotsDelete_length_le (s : List (String × H)) (uid : String) :
    (slotsDelete s uid).length ≤ s.length :=
  List.length_filter_le _ _

theorem slotsDelete_length_lt (s : List (String × H)) (uid : String)
    (hmem : slotsHas s uid = true) :
    (slotsDelete s uid).length < s.length := by
  unfold slotsDelete
  rcases List.any_eq_true.mp hmem with ⟨p, hp, heq⟩
  simp at heq
  refine List.length_filter_lt_length_iff_exists.mpr ⟨p, hp, ?_⟩
  simp [heq]

/-- One allowed operation preserves the slot-map invariant. -/
theorem roomInv_applyOp (ownerId : String) (r : Room H) (op : Op H)
    (hInv : RoomInv r) (hAll : opAllowed ownerId r op = true) :
    RoomInv (applyOp ownerId r op) := by
  obtain ⟨hnd, hlen⟩ := hInv
  cases op with
  | join uid s =>
      simp only [applyOp]
      by_cases hc : r.closed = true
      · have he : (joinRoom r uid s).1 = r := by simp [joinRoom, hc]
        rw [he]
        exact ⟨hnd, hlen⟩
      · by_cases hl : r.slots.length < 2
        · have he : (joinRoom r uid s).1
              = { r with slots := slotsInsert r.slots uid s } := by
            simp [joinRoom, hc, hl]
          rw [he]
          refine ⟨slotsInsert_keys_nodup r.slots uid s hnd, ?_⟩
          show (slotsInsert r.slots uid s).length ≤ 2
          have h1 := slotsInsert_length r.slots uid s
          omega
        · have he : (joinRoom r uid s).1
              = { r with queue := r.queue ++ [⟨uid, s⟩] } := by
            simp [joinRoom, hc, hl]
          rw [he]
          exact ⟨hnd, hlen⟩
  | leave uid =>
      simp only [applyOp]
      by_cases ho : uid = ownerId
      · have he : (release r uid (uid = ownerId)).1
            = { r with slots := slotsDelete r.slots uid, closed := true } := by
          simp [release, ho]
        rw [he]
        refine ⟨slotsDelete_keys_nodup r.slots uid hnd, ?_⟩
        show (slotsDelete r.slots uid).length ≤ 2
        exact le_trans (slotsDelete_length_le r.slots uid) hlen
      · have hocc : slotsHas r.slots uid = true := by
          have h2 := hAll
          simp [opAllowed, ho] at h2
          exact h2
        cases hq : r.queue with
        | nil =>
            have he : (release r uid (uid = ownerId)).1
                = { r with slots := slotsDelete r.slots uid } := by
              simp [release, ho, hq]
            rw [he]
            refine ⟨slotsDelete_keys_nodup r.slots uid hnd, ?_⟩
            show (slotsDelete r.slots uid).length ≤ 2
            exact le_trans (slotsDelete_length_le r.slots uid) hlen
        | cons w rest =>
            have hdel := slotsDelete_length_lt r.slots uid hocc
            have he : (release r uid (uid = ownerId)).1
                = { r with
                      slots := slotsInsert (slotsDelete r.slots uid)
                        w.uid w.stream,
                      queue := rest } := by
              simp [release, ho, hq]
            rw [he]
            refine ⟨slotsInsert_keys_nodup _ w.uid w.stream
              (slotsDelete_keys_nodup r.slots uid hnd), ?_⟩
            show (slotsInsert (slotsDelete r.slots uid) w.uid w.stream).length
              ≤ 2
            have h1 := slotsInsert_length (slotsDelete r.slots uid)
              w.uid w.stream
            omega

/-- The invariant holds at the end of every successful checked run. -/
theorem runOpsCheckedFrom_inv (ownerId : String) (ops : List (Op H)) :
    ∀ r₀ r : Room H, RoomInv r₀ →
      runOpsCheckedFrom ownerId r₀ ops = some r → RoomInv r := by
  induction ops with
  | nil =>
      intro r₀ r h0 he
      unfold runOpsCheckedFrom at he
      injection he with he
      rw [← he]
      exact h0
  | cons op rest ih =>
      intro r₀ r h0 he
      unfold runOpsCheckedFrom at he
      by_cases ha : opAllowed ownerId r₀ op = true
      · rw [if_pos ha] at he
        exact ih _ _ (roomInv_applyOp ownerId r₀ op h0 ha) he
      · rw [if_neg ha] at he
        cases he

/-- With distinct slot keys, at most one slot belongs to the owner id. -/
theorem ownerHolders_le_one (ownerId : String) (r : Room H)
    (hnd : (r.slots.map Prod.fst).Nodup) :
    ownerHolders ownerId r ≤ 1 := by
  unfold ownerHolders
  cases hf : r.slots.filter (fun p => p.1 = ownerId) with
  | nil => simp
  | cons a t =>
      cases t with
      | nil => simp
      | cons b t' =>
          exfalso
          have hsub : List.Sublist ((a :: b :: t').map Prod.fst)
              (r.slots.map Prod.fst) := by
            rw [← hf]
            exact List.Sublist.map Prod.fst (List.filter_sublist _)
          have hnd' := List.Nodup.sublist hsub hnd
          have hamem : a ∈ r.slots.filter (fun p => p.1 = ownerId) := by
            rw [hf]
            exact List.mem_cons_self _ _
          have hbmem : b ∈ r.slots.filter (fun p => p.1 = ownerId) := by
            rw [hf]
            exact List.mem_cons_of_mem _ (List.mem_cons_self _ _)
          have ha : a.1 = ownerId := by
            have := (List.mem_filter.mp hamem).2
            simpa using this
          have hb : b.1 = ownerId := by
            have := (List.mem_filter.mp hbmem).2
            simpa using this
          simp only [List.map_cons, List.nodup_cons, List.mem_cons] at hnd'
          exact hnd'.1 (Or.inl (by rw [ha, hb]))

/-- C2 counterexample: the occupancy claims fail on reachable states — two
participants neither of whom is the owner can be seated at once (two
guest-seat holders), and a departure by an unrelated id with a full room
and a queued waiter promotes into a third slot, so |occupants| reaches 3. -/
theorem occupancy_bound_cex :
    guestHolders "o2" (runOps "o2" [Op.join "a2" (0 : Nat), Op.join "b2" 1])
      = 2 ∧
    (runOps "o2"
        [Op.join "a2" (0 : Nat), Op.join "b2" 1, Op.join "c2" 2,
         Op.leave "d2"]).slots.length
      = 3 := by decide

/-- C2 amended: for runs in which every departure names the owner or a
currently seated participant, every reachable room state has at most two
occupants and at most one owner-seat holder; the bound on guest-seat
holders does not hold (admission does not distinguish seats), and an
unrestricted departure can break the occupancy bound. -/
theorem checkedRun_occupancy (ownerId : String) (ops : List (Op H))
    (r : Room H) (h : runOpsChecked ownerId ops = some r) :
    r.slots.length ≤ 2 ∧ ownerHolders ownerId r ≤ 1 := by
  have hInv := runOpsCheckedFrom_inv ownerId ops (Room.new H) r
    (by constructor <;> simp [Room.new]) h
  exact ⟨hInv.2, ownerHolders_le_one ownerId r hInv.1⟩

/-- Result room of the checked witness run. -/
def roomW2 : Room Nat :=
  runOps "o2" [Op.join "o2" (0 : Nat), Op.join "a2" 1, Op.leave "a2",
    Op.join "b2" 2]

/-- Witness for `checkedRun_occupancy` on a concrete checked run. -/
theorem checkedRun_occupancy_witness :
    runOpsChecked "o2" [Op.join "o2" (0 : Nat), Op.join "a2" 1,
        Op.leave "a2", Op.join "b2" 2]
      = some roomW2 ∧
    (roomW2.slots.length ≤ 2 ∧ ownerHolders "o2" roomW2 ≤ 1) :=
  ⟨by decide,
   checkedRun_occupancy "o2"
     [Op.join "o2" (0 : Nat), Op.join "a2" 1, Op.leave "a2", Op.join "b2" 2]
     roomW2 (by decide)⟩

/-- Witness for `sole_occupant_readmission_idempotent` at a concrete
half-full room. -/
theorem sole_occupant_readmission_idempotent_witness :
    ({ slots := [("g9w", 5)], queue := [], closed := false } : Room Nat).closed
      = false ∧
    joinRoom ({ slots := [("g9w", 5)], queue := [], closed := false } : Room Nat)
        "g9w" 5
      = ({ slots := [("g9w", 5)], queue := [], closed := false },
         JoinResult.admitted) :=
  ⟨rfl,
   sole_occupant_readmission_idempotent
     ({ slots := [("g9w", 5)], queue := [], closed := false } : Room Nat)
     "g9w" 5 rfl rfl⟩

theorem watchPositionFrom_none (uid : String) (q : List (Waiter H))
    (h : ∀ w ∈ q, w.uid ≠ uid) :
    ∀ i : Int, watchPositionFrom uid i q = -1 := by
  induction q with
  | nil => intro i; rfl
  | cons w rest ih =>
      intro i
      unfold watchPositionFrom
      rw [if_neg (h w (List.mem_cons_self _ _))]
      exact ih (fun w' hw' => h w' (List.mem_cons_of_mem _ hw')) (i + 1)

theorem watchPositionFrom_found (uid : String) (pre : List (Waiter H))
    (w : Waiter H) (post : List (Waiter H)) (hw : w.uid = uid)
    (hpre : ∀ w' ∈ pre, w'.uid ≠ uid) :
    ∀ i : Int, watchPositionFrom uid i (pre ++ w :: post)
      = i + pre.length + 1 := by
  induction pre with
  | nil =>
      intro i
      show watchPositionFrom uid i (w :: post)
        = i + ([] : List (Waiter H)).length + 1
      unfold watchPositionFrom
      rw [if_pos hw]
      simp
  | cons a t ih =>
      intro i
      have ha : a.uid ≠ uid := hpre a (List.mem_cons_self _ _)
      have ht : ∀ w' ∈ t, w'.uid ≠ uid :=
        fun w' hw' => hpre w' (List.mem_cons_of_mem _ hw')
      show watchPositionFrom uid i (a :: (t ++ w :: post))
        = i + (a :: t).length + 1
      unfold watchPositionFrom
      rw [if_neg ha, ih ht (i + 1)]
      simp
      omega

/-- Registry holding room "r8" with "s8" seated (and nobody queued). -/
def regsC8 : Registry Nat := (joinChat ([] : Registry Nat) "r8" "s8" 0).1

/-- C8 counterexample: the seated participant "s8" is reported at
position -1, not 0 — `WatchChatQueue` never consults the slot map, so a
caller holding a seat is indistinguishable from an unrelated id. -/
theorem watch_seated_position_cex :
    slotsHas ((regLookup regsC8 "r8").getD (Room.new Nat)).slots "s8"
      = true ∧
    watchTick regsC8 "r8" "s8" = WatchResult.report 0 (-1) := by decide

/-- C8 amended: a `WatchChatQueue` tick reports the queue length together
with the caller's 1-based FIFO index in the queue, and -1 whenever the
caller is not queued — including when it currently holds a seat; a
missing in-memory room reports count 0 and position -1. -/
theorem watchTick_reports (regs : Registry H) (roomID uid : String)
    (r : Room H) :
    (regLookup regs roomID = none →
       watchTick regs roomID uid = WatchResult.report 0 (-1)) ∧
    (regLookup regs roomID = some r → r.closed = false →
       watchTick regs roomID uid
         = WatchResult.report r.queue.length (watchPosition uid r.queue)) ∧
    ((∀ w ∈ r.queue, w.uid ≠ uid) → watchPosition uid r.queue = -1) ∧
    (∀ pre w post, r.queue = pre ++ w :: post → w.uid = uid →
       (∀ w' ∈ pre, w'.uid ≠ uid) →
       watchPosition uid r.queue = pre.length + 1) := by
  refine ⟨?_, ?_, ?_, ?_⟩
  · intro h
    simp [watchTick, h]
  · intro h hc
    simp [watchTick, h, hc]
  · intro h
    exact watchPositionFrom_none uid r.queue h 0
  · intro pre w post hq hw hpre
    unfold watchPosition
    rw [hq, watchPositionFrom_found uid pre w post hw hpre 0]
    omega

/-- Room for the queue-watch witness: "u8" queued behind "x8". -/
def roomW8 : Room Nat :=
  { slots := [], queue := [⟨"x8", 0⟩, ⟨"u8", 1⟩], closed := false }

/-- Registry for the queue-watch witness. -/
def regsW8 : Registry Nat := regStore [] "rw8" roomW8

/-- Witness for `watchTick_reports`: the second queued caller is reported
with count 2 and position 2. -/
theorem watchTick_reports_witness :
    regLookup regsW8 "rw8" = some roomW8 ∧
    watchTick regsW8 "rw8" "u8" = WatchResult.report 2 2 ∧
    watchPosition "u8" roomW8.queue = 2 :=
  ⟨by decide,
   by
    have h := (watchTick_reports regsW8 "rw8" "u8" roomW8).2.1
      (by decide) (by decide)
    rw [h]
    decide,
   by
    have h := (watchTick_reports regsW8 "rw8" "u8" roomW8).2.2.2
      [⟨"x8", 0⟩] ⟨"u8", 1⟩ [] (by decide) (by decide) (by decide)
    rw [h]
    decide⟩

end Lovco
